import Mathlib

/-!
Shallow embedding of the simulation core of `src/Playable/main.cpp`
(falling-orb catcher game): element types, game states, the particle
pool (`ParticleSystem`), the entities (`Basket`, `Orb`), and the
orchestrator (`Game`) with its per-frame `update`, input handling and
reset.  Floating-point quantities are modelled as rationals; every
random draw made by the C++ code (which constructs fresh distributions
at each call site) is modelled as an input supplied by an `Oracle`
value, and the transcendental `sin` evaluation used for the horizontal
zig-zag is likewise supplied as an input.
-/

/-- The closed element enumeration from the source
(`enum ElementType { EARTH = 0, WATER, FIRE, AIR, NUM_ELEMENT_TYPES }`). -/
inductive ElementType where
  | EARTH
  | WATER
  | FIRE
  | AIR
deriving DecidableEq

/-- Integer value of an `ElementType`, as in the C++ enum. -/
def ElementType.toIdx : ElementType → Int
  | .EARTH => 0
  | .WATER => 1
  | .FIRE => 2
  | .AIR => 3

/-- Element type from an integer index, as `static_cast<ElementType>` does
for the in-range values 0..3.  Out-of-range casts are not defined by the
source (unspecified enum value); they are mapped to `EARTH` here and are
never reached by the code paths modelled below. -/
def ElementType.ofIdx : Int → ElementType
  | 0 => .EARTH
  | 1 => .WATER
  | 2 => .FIRE
  | 3 => .AIR
  | _ => .EARTH

/-- `enum class GameState { RUNNING, GAME_OVER_WIN, GAME_OVER_LOSE }`. -/
inductive GameState where
  | RUNNING
  | GAME_OVER_WIN
  | GAME_OVER_LOSE
deriving DecidableEq

/-- An RGBA colour (`glm::vec4`), with exact rational components. -/
structure RGBA where
  r : ℚ
  g : ℚ
  b : ℚ
  a : ℚ
deriving DecidableEq

/-- The values drawn from the random distributions during one particle
initialisation in `ParticleSystem::emit`: `lifeDist` (duration),
`sizeDist` (size; `size2` models the second `sizeDist` call made in the
`AIR` branch), and the two `velDist` calls for the velocity components. -/
structure ParticleDraw where
  dur : ℚ
  size : ℚ
  size2 : ℚ
  vx : ℚ
  vy : ℚ
deriving DecidableEq

/-- One pooled particle (`struct Particle`).  Only the two position and
velocity components used by the 2D simulation are kept (z is constant). -/
structure Particle where
  px : ℚ
  py : ℚ
  vx : ℚ
  vy : ℚ
  color : RGBA
  life : ℚ
  dur : ℚ
  size : ℚ
  active : Bool
deriving DecidableEq

/-- The default-constructed particle
(`Particle() : position(0), velocity(0), color(1), life(0), duration(0), size(1), active(false)`). -/
def Particle.init : Particle :=
  { px := 0, py := 0, vx := 0, vy := 0, color := ⟨1, 1, 1, 1⟩
    life := 0, dur := 0, size := 1, active := false }

/-- Particle initialisation performed by `ParticleSystem::emit` on a found
slot: activate, place at the emission point, reset life, and set duration,
size, colour and velocity from the type-specific switch. -/
def Particle.make (pos : ℚ × ℚ) (ty : ElementType) (d : ParticleDraw) : Particle :=
  let base : Particle :=
    { px := pos.1, py := pos.2, vx := 0, vy := 0, color := ⟨1, 1, 1, 1⟩
      life := 0, dur := d.dur, size := d.size, active := true }
  match ty with
  | .EARTH => { base with color := ⟨0.4, 0.2, 0, 1⟩
                          vx := d.vx * 30, vy := d.vy * 30 - 20 }
  | .WATER => { base with color := ⟨0.5, 0.7, 1, 1⟩
                          vx := d.vx * 40, vy := d.vy * 40 + 10 }
  | .FIRE => { base with color := ⟨1, 0.5, 0, 1⟩
                         vx := d.vx * 60, vy := |d.vy| * 80 + 20 }
  | .AIR => { base with color := ⟨0.8, 0.9, 1, 1⟩
                        vx := d.vx * 70, vy := d.vy * 70, size := d.size2 * 1.2 }

/-- The particle pool (`class ParticleSystem`): a vector of `maxParticles`
slots with the `lastUsedParticle` scan cursor.  Rendering fields are not
part of the simulation state. -/
structure ParticleSystem where
  particles : List Particle
  lastUsedParticle : Nat
  maxParticles : Nat
deriving DecidableEq

/-- The constructor `ParticleSystem(maxParticles, ...)`: the pool is
resized to `maxParticles` default-constructed slots, cursor at 0. -/
def ParticleSystem.create (maxParticles : Nat) : ParticleSystem :=
  { particles := List.replicate maxParticles Particle.init
    lastUsedParticle := 0
    maxParticles := maxParticles }

/-- The index order scanned by `ParticleSystem::findUnusedParticle`: first
`lastUsedParticle` up to `maxParticles`, then `0` up to `lastUsedParticle`. -/
def ParticleSystem.scanOrder (ps : ParticleSystem) : List Nat :=
  List.range' ps.lastUsedParticle (ps.maxParticles - ps.lastUsedParticle) ++
    List.range ps.lastUsedParticle

/-- `ParticleSystem::findUnusedParticle`: the first inactive slot in scan
order, or `none` (the C++ returns `(unsigned)-1`) when every scanned slot
is active.  The C++ also stores the found index into `lastUsedParticle`;
that write is performed by `emitOne` below, which is the only caller. -/
def ParticleSystem.findUnusedParticle (ps : ParticleSystem) : Option Nat :=
  ps.scanOrder.find? (fun i => !((ps.particles.getD i Particle.init).active))

/-- One iteration of the loop in `ParticleSystem::emit`: find an unused
slot; if none, skip silently; otherwise record it as `lastUsedParticle`
and initialise it. -/
def ParticleSystem.emitOne (ps : ParticleSystem) (pos : ℚ × ℚ) (ty : ElementType)
    (d : ParticleDraw) : ParticleSystem :=
  match ps.findUnusedParticle with
  | none => ps
  | some i =>
    { ps with lastUsedParticle := i
              particles := ps.particles.set i (Particle.make pos ty d) }

/-- `ParticleSystem::emit(position, count, type)`: run the per-particle
loop `count` times; the i-th iteration uses the i-th bundle of random
draws. -/
def ParticleSystem.emit (ps : ParticleSystem) (pos : ℚ × ℚ) (count : Nat)
    (ty : ElementType) (draws : Nat → ParticleDraw) : ParticleSystem :=
  (List.range count).foldl (fun s i => s.emitOne pos ty (draws i)) ps

/-- `ParticleSystem::update(deltaTime, cameraPos)` (the camera argument is
unused by the simulation): advance life of each active slot, deactivate
on expiry, otherwise integrate position and apply the drag factor
`(1 - 0.5 * dt)`. -/
def ParticleSystem.advance (ps : ParticleSystem) (dt : ℚ) : ParticleSystem :=
  { ps with particles := ps.particles.map (fun p =>
      if p.active then
        let life := p.life + dt
        if life > p.dur then
          { p with life := life, active := false }
        else
          { p with life := life
                   px := p.px + p.vx * dt, py := p.py + p.vy * dt
                   vx := p.vx * (1 - 0.5 * dt), vy := p.vy * (1 - 0.5 * dt) }
      else p) }

/-- Number of active slots in a pool. -/
def ParticleSystem.activeCount (ps : ParticleSystem) : Nat :=
  ps.particles.countP (fun p => p.active)

/-- The four per-element pools held by `Game::particleSystems`. -/
structure Pools where
  earth : ParticleSystem
  water : ParticleSystem
  fire : ParticleSystem
  air : ParticleSystem
deriving DecidableEq

/-- `particleSystems[type]` for an element of the closed enumeration. -/
def Pools.get (ps : Pools) : ElementType → ParticleSystem
  | .EARTH => ps.earth
  | .WATER => ps.water
  | .FIRE => ps.fire
  | .AIR => ps.air

/-- Replace the pool of one element type. -/
def Pools.set (ps : Pools) : ElementType → ParticleSystem → Pools
  | .EARTH, s => { ps with earth := s }
  | .WATER, s => { ps with water := s }
  | .FIRE, s => { ps with fire := s }
  | .AIR, s => { ps with air := s }

/-- Apply a function to the pool of one element type (a call through
`particleSystems[t]->...` that mutates that pool in place). -/
def Pools.modify (ps : Pools) (t : ElementType)
    (f : ParticleSystem → ParticleSystem) : Pools :=
  ps.set t (f (ps.get t))

/-- Advance all four pools (`for (auto& ps : particleSystems) ps->update(...)`). -/
def Pools.advanceAll (ps : Pools) (dt : ℚ) : Pools :=
  { earth := ps.earth.advance dt
    water := ps.water.advance dt
    fire := ps.fire.advance dt
    air := ps.air.advance dt }

/-- The basket (`class Basket`): 2D position, collision width/height,
movement speed and current element type.  `scale` equals `(w, h)` in the
source, so it is not duplicated. -/
structure Basket where
  x : ℚ
  y : ℚ
  w : ℚ
  h : ℚ
  speed : ℚ
  currentType : ElementType
deriving DecidableEq

/-- `Basket::getLeft`. -/
def Basket.getLeft (b : Basket) : ℚ := b.x - b.w / 2

/-- `Basket::getRight`. -/
def Basket.getRight (b : Basket) : ℚ := b.x + b.w / 2

/-- `Basket::getBottom`. -/
def Basket.getBottom (b : Basket) : ℚ := b.y - b.h / 2

/-- `Basket::moveLeft(deltaTime)`. -/
def Basket.moveLeft (b : Basket) (dt : ℚ) : Basket :=
  { b with x := b.x - b.speed * dt }

/-- `Basket::moveRight(deltaTime)`. -/
def Basket.moveRight (b : Basket) (dt : ℚ) : Basket :=
  { b with x := b.x + b.speed * dt }

/-- `Basket::changeType(direction)`:
`currentType = static_cast<ElementType>((currentType + direction + NUM_ELEMENT_TYPES) % NUM_ELEMENT_TYPES)`.
C++ `%` truncates toward zero, which is `Int.tmod`. -/
def Basket.changeType (b : Basket) (direction : Int) : Basket :=
  { b with currentType :=
      ElementType.ofIdx ((b.currentType.toIdx + direction + 4).tmod 4) }

/-- A falling orb (`class Orb`): position, collision size, element type,
fall speed, the per-instance zig-zag parameters drawn at construction,
and the trail-emission timer.  `scale` equals `(w, h)` in the source. -/
structure Orb where
  x : ℚ
  y : ℚ
  w : ℚ
  h : ℚ
  type : ElementType
  fallSpeed : ℚ
  initialX : ℚ
  zigzagAmplitude : ℚ
  zigzagFrequency : ℚ
  zigzagPhaseOffset : ℚ
  particleEmitTimer : ℚ
  particleEmitInterval : ℚ
deriving DecidableEq

/-- `Orb::getLeft`. -/
def Orb.getLeft (o : Orb) : ℚ := o.x - o.w / 2

/-- `Orb::getBottom`. -/
def Orb.getBottom (o : Orb) : ℚ := o.y - o.h / 2

/-- `Orb::isOffScreen(screenBottomY)`:
`position.y + height / 2 < screenBottomY`. -/
def Orb.isOffScreen (o : Orb) (screenBottomY : ℚ) : Bool :=
  o.y + o.h / 2 < screenBottomY

/-- The kinematic and timer part of `Orb::update(deltaTime, gameInstance)`:
the vertical position drops by `fallSpeed * dt`, the horizontal position
is recomputed absolutely from the zig-zag formula (the evaluated value of
`sin(glfwGetTime() * frequency + phaseOffset)` is supplied as `sinVal`),
and the emission timer accumulates `dt`.  The returned flag tells whether
the timer reached `particleEmitInterval`, in which case the orb emits one
trail particle (performed by the caller, `Game.updateOrbs`, which owns
the pools) and the timer resets to 0. -/
def Orb.advanceOrb (o : Orb) (dt sinVal : ℚ) : Orb × Bool :=
  let o1 := { o with y := o.y - o.fallSpeed * dt
                     x := o.initialX + o.zigzagAmplitude * sinVal }
  let t := o.particleEmitTimer + dt
  if t ≥ o.particleEmitInterval then
    ({ o1 with particleEmitTimer := 0 }, true)
  else
    ({ o1 with particleEmitTimer := t }, false)

/-- `Game::checkAABBCollision(x1, y1, w1, h1, x2, y2, w2, h2)`. -/
def checkAABBCollision (x1 y1 w1 h1 x2 y2 w2 h2 : ℚ) : Bool :=
  (x1 + w1 ≥ x2 && x2 + w2 ≥ x1) && (y1 + h1 ≥ y2 && y2 + h2 ≥ y1)

/-- The collision test made in `Game::checkCollisions` for one orb:
`checkAABBCollision(orb.left, orb.bottom, orb.scale.x, orb.scale.y,
basket.left, basket.bottom, basket.scale.x, basket.scale.y)`. -/
def orbHitsBasket (o : Orb) (b : Basket) : Bool :=
  checkAABBCollision o.getLeft o.getBottom o.w o.h b.getLeft b.getBottom b.w b.h

/-- `Game::getOrbColor(type)`. -/
def getOrbColor : ElementType → RGBA
  | .EARTH => ⟨0.6, 0.4, 0.2, 1⟩
  | .WATER => ⟨0.2, 0.4, 0.8, 1⟩
  | .FIRE => ⟨0.8, 0.2, 0.2, 1⟩
  | .AIR => ⟨0.7, 0.9, 1, 1⟩

/-- All values that the environment feeds into one `Game::update` frame:
the evaluated zig-zag sine for the i-th orb, the emission jitter and the
random draws for the i-th orb trail particle, the random draws made by
`Game::spawnOrb` (position, type and the zig-zag parameters drawn by the
`Orb` constructor), and the draws for the particles of the burst emitted
for the k-th caught orb. -/
structure Oracle where
  sinVal : Nat → ℚ
  jitter : Nat → ℚ × ℚ
  trailDraws : Nat → Nat → ParticleDraw
  spawnX : ℚ
  spawnType : ElementType
  spawnAmp : ℚ
  spawnFreq : ℚ
  spawnPhase : ℚ
  collDraws : Nat → Nat → ParticleDraw

/-- The orchestrator state (`class Game`): screen size, score, basket,
live orbs, the four particle pools, spawn timing constants and the
last-destroyed-orb colour used for score tinting.  Rendering and audio
fields are not part of the simulation state. -/
structure Game where
  screenWidth : ℚ
  screenHeight : ℚ
  score : Int
  basket : Basket
  orbs : List Orb
  pools : Pools
  orbSpawnTimer : ℚ
  orbSpawnInterval : ℚ
  orbFallSpeed : ℚ
  basketBottomMargin : ℚ
  lastDestroyedOrbColor : RGBA
  state : GameState
deriving DecidableEq

/-- The `Game(width, height)` constructor: score 0, spawn interval 1.5,
fall speed 100, bottom margin 30, basket of size 120 x 60 and speed 300
centred at the bottom, four pools of capacity 500, white score tint,
state `RUNNING`. -/
def Game.create (width height : ℚ) : Game :=
  { screenWidth := width
    screenHeight := height
    score := 0
    basket := { x := 0, y := -(height / 2) + 60 / 2 + 30
                w := 120, h := 60, speed := 300, currentType := .EARTH }
    orbs := []
    pools := { earth := ParticleSystem.create 500
               water := ParticleSystem.create 500
               fire := ParticleSystem.create 500
               air := ParticleSystem.create 500 }
    orbSpawnTimer := 0
    orbSpawnInterval := 3 / 2
    orbFallSpeed := 100
    basketBottomMargin := 30
    lastDestroyedOrbColor := ⟨1, 1, 1, 1⟩
    state := .RUNNING }

/-- The loop `for (auto& orb : fallingOrbs) orb->update(deltaTime, this)`:
each orb advances; when its trail timer fires it emits one particle, at
its (already updated) position plus a random jitter, into the pool of its
own element type. -/
def Game.updateOrbs (dt : ℚ) (oracle : Oracle) :
    Nat → List Orb → Pools → List Orb × Pools
  | _, [], pools => ([], pools)
  | i, o :: rest, pools =>
    let u := o.advanceOrb dt (oracle.sinVal i)
    let pools1 :=
      if u.2 then
        pools.modify o.type (fun s =>
          s.emit (u.1.x + (oracle.jitter i).1, u.1.y + (oracle.jitter i).2)
            1 o.type (oracle.trailDraws i))
      else pools
    let r := Game.updateOrbs dt oracle (i + 1) rest pools1
    (u.1 :: r.1, r.2)

/-- The off-screen removal pass in `Game::update` (the `remove_if` call):
each orb whose `isOffScreen(-(screenHeight / 2))` holds is removed, costs
2 score points, and records its colour as the last destroyed colour; the
other orbs are kept in order.  No particle pool is involved. -/
def Game.offscreenPass (screenHeight : ℚ) :
    List Orb → Int → RGBA → List Orb × Int × RGBA
  | [], score, color => ([], score, color)
  | o :: rest, score, color =>
    if o.isOffScreen (-(screenHeight / 2)) then
      Game.offscreenPass screenHeight rest (score - 2) (getOrbColor o.type)
    else
      let r := Game.offscreenPass screenHeight rest score color
      (o :: r.1, r.2.1, r.2.2)

/-- The orb built by `Game::spawnOrb`: random x within margins (drawn by
the orchestrator), just above the top edge, size 60, fall speed from the
orchestrator constant, random type; the zig-zag parameters are drawn by
the `Orb` constructor, and the trail timer starts at 0 with interval
0.05. -/
def Game.spawnedOrb (oracle : Oracle) (g : Game) : Orb :=
  { x := oracle.spawnX
    y := g.screenHeight / 2 + 60 / 2
    w := 60
    h := 60
    type := oracle.spawnType
    fallSpeed := g.orbFallSpeed
    initialX := oracle.spawnX
    zigzagAmplitude := oracle.spawnAmp
    zigzagFrequency := oracle.spawnFreq
    zigzagPhaseOffset := oracle.spawnPhase
    particleEmitTimer := 0
    particleEmitInterval := 1 / 20 }

/-- Result of the collision loop: remaining orbs, score, pools and the
last destroyed colour. -/
structure CollResult where
  orbs : List Orb
  score : Int
  pools : Pools
  color : RGBA
deriving DecidableEq

/-- `Game::checkCollisions`: traverse the live orbs in order; an orb
whose bounding box overlaps the basket is erased, and either (type
match) adds 5 to the score and emits a 50-particle burst into the pool
of its type, or (mismatch) subtracts 2 and emits a 20-particle burst
into the pool of its type; either way its colour becomes the last
destroyed colour.  `k` counts the orbs caught so far and indexes the
oracle draws for the bursts. -/
def Game.checkCollisions (b : Basket) (draws : Nat → Nat → ParticleDraw) :
    Nat → List Orb → Int → Pools → RGBA → CollResult
  | _, [], score, pools, color => ⟨[], score, pools, color⟩
  | k, o :: rest, score, pools, color =>
    if orbHitsBasket o b then
      if o.type = b.currentType then
        Game.checkCollisions b draws (k + 1) rest (score + 5)
          (pools.modify o.type (fun s => s.emit (o.x, o.y) 50 o.type (draws k)))
          (getOrbColor o.type)
      else
        Game.checkCollisions b draws (k + 1) rest (score - 2)
          (pools.modify o.type (fun s => s.emit (o.x, o.y) 20 o.type (draws k)))
          (getOrbColor o.type)
    else
      let r := Game.checkCollisions b draws k rest score pools color
      ⟨o :: r.orbs, r.score, r.pools, r.color⟩

/-- The event part of the `RUNNING` branch of `Game::update`, in source
order: advance the orbs (with their trail emissions), remove off-screen
orbs with the miss penalty, accumulate the spawn timer and spawn when it
reaches the interval, resolve collisions, then advance all pools. -/
def Game.stepEvents (dt : ℚ) (oracle : Oracle) (g : Game) : Game :=
  let u := Game.updateOrbs dt oracle 0 g.orbs g.pools
  let m := Game.offscreenPass g.screenHeight u.1 g.score g.lastDestroyedOrbColor
  let t := g.orbSpawnTimer + dt
  let sp : List Orb × ℚ :=
    if t ≥ g.orbSpawnInterval then (m.1 ++ [Game.spawnedOrb oracle g], 0) else (m.1, t)
  let c := Game.checkCollisions g.basket oracle.collDraws 0 sp.1 m.2.1 u.2 m.2.2
  { g with orbs := c.orbs
           score := c.score
           pools := c.pools.advanceAll dt
           orbSpawnTimer := sp.2
           lastDestroyedOrbColor := c.color }

/-- The two threshold checks closing the `RUNNING` branch of
`Game::update`: `score <= -5` sets `GAME_OVER_LOSE` and clears the orbs,
then `score >= 100` sets `GAME_OVER_WIN` and clears the orbs. -/
def Game.applyThresholds (g : Game) : Game :=
  let g1 := if g.score ≤ -5 then
      { g with state := .GAME_OVER_LOSE, orbs := [] }
    else g
  if g1.score ≥ 100 then
    { g1 with state := .GAME_OVER_WIN, orbs := [] }
  else g1

/-- `Game::update(deltaTime, cameraPos)`: while `RUNNING`, run the event
pipeline then the threshold checks; otherwise only advance the particle
pools. -/
def Game.update (dt : ℚ) (oracle : Oracle) (g : Game) : Game :=
  if g.state = GameState.RUNNING then
    (g.stepEvents dt oracle).applyThresholds
  else
    { g with pools := g.pools.advanceAll dt }

/-- `Game::resetGame`: score 0, orbs cleared, spawn timer 0, state
`RUNNING`, score tint reset to white, basket back to the centred default
slot with type `EARTH`.  The particle pools are not touched. -/
def Game.resetGame (g : Game) : Game :=
  { g with score := 0
           orbs := []
           orbSpawnTimer := 0
           state := .RUNNING
           lastDestroyedOrbColor := ⟨1, 1, 1, 1⟩
           basket := { g.basket with
             x := 0
             y := -(g.screenHeight / 2) + 60 / 2 + g.basketBottomMargin
             currentType := .EARTH } }

/-- `Game::processInput(window, deltaTime)` with the polled key states as
booleans: while `RUNNING`, the A and D keys move the basket with
clamping to the screen bounds; in a terminal state, the R key resets the
game. -/
def Game.processInput (g : Game) (aKey dKey rKey : Bool) (dt : ℚ) : Game :=
  if g.state = GameState.RUNNING then
    let g1 :=
      if aKey then
        let b1 := g.basket.moveLeft dt
        let b2 := if b1.getLeft < -(g.screenWidth / 2) then
            { b1 with x := -(g.screenWidth / 2) + b1.w / 2 }
          else b1
        { g with basket := b2 }
      else g
    if dKey then
      let b1 := g1.basket.moveRight dt
      let b2 := if b1.getRight > g1.screenWidth / 2 then
          { b1 with x := g1.screenWidth / 2 - b1.w / 2 }
        else b1
      { g1 with basket := b2 }
    else g1
  else
    if rKey then g.resetGame else g

/-- `Game::scrollCallback(yoffset)`: while `RUNNING`, scrolling up cycles
the basket type forward and scrolling down cycles it backward. -/
def Game.scrollCallback (g : Game) (yoffset : ℚ) : Game :=
  if g.state = GameState.RUNNING then
    if yoffset > 0 then { g with basket := g.basket.changeType 1 }
    else if yoffset < 0 then { g with basket := g.basket.changeType (-1) }
    else g
  else g

/-- `Game::setScreenDimensions(newWidth, newHeight)`: store the new size
and recompute the basket vertical position from the new bottom edge. -/
def Game.setScreenDimensions (g : Game) (newWidth newHeight : ℚ) : Game :=
  { g with screenWidth := newWidth
           screenHeight := newHeight
           basket := { g.basket with
             y := -(newHeight / 2) + g.basket.h / 2 + g.basketBottomMargin } }

/-- `Game::getParticleSystem(type)` with the raw integer value of the
enum, as the defensive check reads it:
`if (type >= 0 && type < NUM_ELEMENT_TYPES) return particleSystems[type].get(); return nullptr;`. -/
def Game.getParticleSystem (g : Game) (typeIdx : Int) : Option ParticleSystem :=
  if 0 ≤ typeIdx ∧ typeIdx < 4 then
    some (g.pools.get (ElementType.ofIdx typeIdx))
  else
    none

/-- The mutating operations the rest of the program performs on a `Game`
value: the per-frame update, keyboard input, the scroll callback, the
resize callback, and the explicit reset. -/
inductive GameOp where
  | update (dt : ℚ) (oracle : Oracle)
  | processInput (aKey dKey rKey : Bool) (dt : ℚ)
  | scroll (yoffset : ℚ)
  | setDims (newWidth newHeight : ℚ)
  | reset

/-- Apply one operation to a game state. -/
def GameOp.apply : GameOp → Game → Game
  | .update dt oracle, g => g.update dt oracle
  | .processInput a d r dt, g => g.processInput a d r dt
  | .scroll y, g => g.scrollCallback y
  | .setDims w h, g => g.setScreenDimensions w h
  | .reset, g => g.resetGame

/-- Pool well-formedness, established by the constructor and preserved by
every pool operation: the slot vector has exactly `maxParticles` entries
and the scan cursor is within bounds. -/
def ParticleSystem.WF (ps : ParticleSystem) : Prop :=
  ps.particles.length = ps.maxParticles ∧ ps.lastUsedParticle ≤ ps.maxParticles

/-- The slot-selection rule exactly as the specification words it: a
linear scan that starts at the index FOLLOWING the last slot that was
(re)activated and wraps around once over the whole pool.  Stated only to
be compared with `ParticleSystem.findUnusedParticle`, which is what the
source defines. -/
def ParticleSystem.findUnusedSpec (ps : ParticleSystem) : Option Nat :=
  ((List.range ps.maxParticles).map
      (fun k => (ps.lastUsedParticle + 1 + k) % ps.maxParticles)).find?
    (fun i => !((ps.particles.getD i Particle.init).active))

/-- An externally requested pool operation: an emission request or a
frame advance. -/
inductive PoolOp where
  | emit (pos : ℚ × ℚ) (count : Nat) (ty : ElementType) (draws : Nat → ParticleDraw)
  | advance (dt : ℚ)

/-- Apply one pool operation. -/
def PoolOp.apply : PoolOp → ParticleSystem → ParticleSystem
  | .emit pos count ty draws, ps => ps.emit pos count ty draws
  | .advance dt, ps => ps.advance dt

/-- Apply a sequence of pool operations in order. -/
def PoolOp.applyAll (ops : List PoolOp) (ps : ParticleSystem) : ParticleSystem :=
  ops.foldl (fun s op => op.apply s) ps

/-- The particle-burst effect of the collision loop on the pools, stated
over the caught orbs only: the k-th caught orb adds a burst of 50 (type
match with the basket) or 20 (mismatch) particles of its own type into
the pool of its own type. -/
def Game.burstFold (b : Basket) (draws : Nat → Nat → ParticleDraw) :
    Nat → List Orb → Pools → Pools
  | _, [], pools => pools
  | k, o :: rest, pools =>
    Game.burstFold b draws (k + 1) rest
      (pools.modify o.type (fun s =>
        s.emit (o.x, o.y) (if o.type = b.currentType then 50 else 20) o.type (draws k)))

/-- A fixed bundle of random draws used by the concrete examples below. -/
def drawEx : ParticleDraw := { dur := 1, size := 20, size2 := 20, vx := 0, vy := 0 }

/-- A fixed oracle used by the concrete examples below. -/
def oracleEx : Oracle :=
  { sinVal := fun _ => 0
    jitter := fun _ => (0, 0)
    trailDraws := fun _ _ => drawEx
    spawnX := 0
    spawnType := .EARTH
    spawnAmp := 30
    spawnFreq := 1
    spawnPhase := 0
    collDraws := fun _ _ => drawEx }

/-- A concrete basket. -/
def basketEx : Basket :=
  { x := 0, y := -70, w := 120, h := 60, speed := 300, currentType := .EARTH }

/-- A concrete orb. -/
def orbEx : Orb :=
  { x := 0, y := 300, w := 60, h := 60, type := .WATER, fallSpeed := 100
    initialX := 0, zigzagAmplitude := 30, zigzagFrequency := 2
    zigzagPhaseOffset := 0, particleEmitTimer := 0, particleEmitInterval := 1 / 20 }

/-- A concrete step sequence (time step and evaluated sine). -/
def stepsEx : List (ℚ × ℚ) := [(1, 0), (2, 1)]

/-- A fresh two-slot pool. -/
def psStart : ParticleSystem := ParticleSystem.create 2

/-- A one-slot pool whose only slot is active. -/
def psFull : ParticleSystem :=
  { particles := [{ Particle.init with active := true, dur := 5 }]
    lastUsedParticle := 0
    maxParticles := 1 }

/-- The particle of `drawEx` emitted at the origin as EARTH, after it
expired two time units later: the deactivation branch of the advance
increments the life past the duration and clears the flag, leaving the
other fields as the emission set them. -/
def psCexpired : Particle :=
  { px := 0, py := 0, vx := 0, vy := -20, color := ⟨0.4, 0.2, 0, 1⟩
    life := 2, dur := 1, size := 20, active := false }

/-- A two-slot pool in which slot 0 was activated by an emission and has
since expired: both slots are inactive and the cursor still points at
slot 0, the last slot that was (re)activated.  The theorem
`psC_reachable` below shows this is the state a fresh pool reaches after
that emission and one expiring advance. -/
def psC : ParticleSystem :=
  { particles := [psCexpired, Particle.init]
    lastUsedParticle := 0
    maxParticles := 2 }

/-- Small concrete pools for the example game states. -/
def poolsEx : Pools :=
  { earth := ParticleSystem.create 2
    water := ParticleSystem.create 2
    fire := ParticleSystem.create 2
    air := ParticleSystem.create 2 }

/-- A concrete running game state. -/
def gRunEx : Game :=
  { screenWidth := 200
    screenHeight := 200
    score := 0
    basket := basketEx
    orbs := []
    pools := poolsEx
    orbSpawnTimer := 0
    orbSpawnInterval := 3 / 2
    orbFallSpeed := 100
    basketBottomMargin := 30
    lastDestroyedOrbColor := ⟨1, 1, 1, 1⟩
    state := .RUNNING }

/-- A concrete terminal game state. -/
def gTermEx : Game := { gRunEx with state := .GAME_OVER_LOSE }

/-- The kinematic effect of one orb advance on the vertical position: it
drops by exactly `fallSpeed * dt`, and the fall speed is unchanged. -/
theorem Orb.advanceOrb_y (o : Orb) (dt sv : ℚ) :
    ((o.advanceOrb dt sv).1).y = o.y - o.fallSpeed * dt ∧
    ((o.advanceOrb dt sv).1).fallSpeed = o.fallSpeed := by
  unfold Orb.advanceOrb
  dsimp only
  split <;> exact ⟨rfl, rfl⟩

/-- C7: for every current basket type and every direction in {+1, −1},
`changeType` sets the type to `(current + direction + N) mod N` with
`N = 4` element types (stated with mathematical mod; the C++ `%` agrees
here because the operand is nonnegative), changes no other basket field,
and applying it four times with the same direction returns the original
basket. -/
theorem claim_c7 (b : Basket) (d : Int) (hd : d = 1 ∨ d = -1) :
    (b.changeType d).currentType =
      ElementType.ofIdx ((b.currentType.toIdx + d + 4) % 4) ∧
    (b.changeType d).x = b.x ∧ (b.changeType d).y = b.y ∧
    (b.changeType d).w = b.w ∧ (b.changeType d).h = b.h ∧
    (b.changeType d).speed = b.speed ∧
    (((b.changeType d).changeType d).changeType d).changeType d = b := by
  rcases hd with rfl | rfl <;> rcases b with ⟨x, y, w, h, sp, t⟩ <;> cases t <;>
    exact ⟨rfl, rfl, rfl, rfl, rfl, rfl, rfl⟩

/-- Witness for C7 at a concrete basket and direction +1. -/
theorem claim_c7_witness :
    (basketEx.changeType 1).currentType =
      ElementType.ofIdx ((basketEx.currentType.toIdx + 1 + 4) % 4) ∧
    (basketEx.changeType 1).x = basketEx.x ∧
    (basketEx.changeType 1).y = basketEx.y ∧
    (basketEx.changeType 1).w = basketEx.w ∧
    (basketEx.changeType 1).h = basketEx.h ∧
    (basketEx.changeType 1).speed = basketEx.speed ∧
    (((basketEx.changeType 1).changeType 1).changeType 1).changeType 1 = basketEx :=
  claim_c7 basketEx 1 (Or.inl rfl)

/-- C8: for nonnegative time steps, folding the orb advance over any
sequence of steps lowers the vertical position by exactly
`fallSpeed * T` where `T` is the sum of the steps, independently of how
`T` is partitioned. -/
theorem claim_c8 (o : Orb) (steps : List (ℚ × ℚ))
    (hnn : ∀ s ∈ steps, 0 ≤ s.1) :
    (steps.foldl (fun acc s => (acc.advanceOrb s.1 s.2).1) o).y =
      o.y - o.fallSpeed * (steps.map Prod.fst).sum := by
  induction steps generalizing o with
  | nil => simp
  | cons s rest ih =>
    have h := Orb.advanceOrb_y o s.1 s.2
    rw [List.foldl_cons, ih _ (fun t ht => hnn t (List.mem_cons_of_mem _ ht)),
      h.1, h.2, List.map_cons, List.sum_cons]
    ring

/-- Witness for C8 at a concrete orb and a two-step partition of T = 3. -/
theorem claim_c8_witness :
    (∀ s ∈ stepsEx, 0 ≤ s.1) ∧
    (stepsEx.foldl (fun acc s => (acc.advanceOrb s.1 s.2).1) orbEx).y =
      orbEx.y - orbEx.fallSpeed * (stepsEx.map Prod.fst).sum :=
  ⟨by decide, claim_c8 orbEx stepsEx (by decide)⟩

/-- C10: the particle-system lookup refuses any out-of-range integer
index via its defensive check, and an index produced from the closed
element enumeration is always in range, so the lookup on the catch/emit
paths always succeeds and returns the pool of that type. -/
theorem claim_c10 :
    (∀ (g : Game) (i : Int), (i < 0 ∨ 4 ≤ i) → g.getParticleSystem i = none) ∧
    (∀ (g : Game) (t : ElementType),
      g.getParticleSystem t.toIdx = some (g.pools.get t)) := by
  constructor
  · intro g i hi
    unfold Game.getParticleSystem
    rw [if_neg]
    rintro ⟨h1, h2⟩
    omega
  · intro g t
    cases t <;> rfl

/-- Witness for C10 at the out-of-range index 5. -/
theorem claim_c10_witness : gRunEx.getParticleSystem 5 = none :=
  claim_c10.1 gRunEx 5 (Or.inr (by decide))

/-- C4: `resetGame` restores score 0, clears the orbs, zeroes the spawn
timer, sets the state to `RUNNING`, puts the basket back at its default
slot with the first element type, and leaves every particle pool
unchanged; and among all the game operations, the only way a terminal
state transitions back to `RUNNING` is by performing exactly the reset. -/
theorem claim_c4 :
    (∀ g : Game,
      (g.resetGame).score = 0 ∧
      (g.resetGame).orbs = [] ∧
      (g.resetGame).orbSpawnTimer = 0 ∧
      (g.resetGame).state = GameState.RUNNING ∧
      (g.resetGame).basket.x = 0 ∧
      (g.resetGame).basket.y = -(g.screenHeight / 2) + 60 / 2 + g.basketBottomMargin ∧
      (g.resetGame).basket.currentType = ElementType.EARTH ∧
      (g.resetGame).pools = g.pools) ∧
    (∀ (op : GameOp) (g : Game),
      (g.state = GameState.GAME_OVER_WIN ∨ g.state = GameState.GAME_OVER_LOSE) →
      (op.apply g).state = GameState.RUNNING →
      op.apply g = g.resetGame) := by
  constructor
  · intro g
    exact ⟨rfl, rfl, rfl, rfl, rfl, rfl, rfl, rfl⟩
  · intro op g hterm hrun
    have hne : g.state ≠ GameState.RUNNING := by
      rcases hterm with h | h <;> rw [h] <;> intro hc <;> exact GameState.noConfusion hc
    cases op with
    | update dt oracle =>
      exfalso
      apply hne
      have : (GameOp.apply (.update dt oracle) g).state = g.state := by
        show (Game.update dt oracle g).state = g.state
        unfold Game.update
        rw [if_neg hne]
      rw [← this]
      exact hrun
    | processInput a d r dt =>
      have hr : GameOp.apply (.processInput a d r dt) g =
          if r then g.resetGame else g := by
        show Game.processInput g a d r dt = _
        unfold Game.processInput
        rw [if_neg hne]
      cases r with
      | true =>
        rw [hr]
        simp
      | false =>
        exfalso
        apply hne
        rw [← hrun, hr]
        simp
    | scroll y =>
      exfalso
      apply hne
      have : (GameOp.apply (.scroll y) g).state = g.state := by
        show (Game.scrollCallback g y).state = g.state
        unfold Game.scrollCallback
        rw [if_neg hne]
      rw [← this]
      exact hrun
    | setDims w h =>
      exfalso
      apply hne
      rw [← hrun]
      rfl
    | reset => rfl

/-- Witness for C4 at a concrete terminal state and the reset operation. -/
theorem claim_c4_witness : GameOp.apply GameOp.reset gTermEx = gTermEx.resetGame :=
  claim_c4.2 GameOp.reset gTermEx (Or.inr rfl) rfl

/-- The threshold stage never changes the score. -/
theorem Game.applyThresholds_score (g : Game) : g.applyThresholds.score = g.score := by
  unfold Game.applyThresholds
  dsimp only
  split_ifs <;> rfl

/-- The event stage never changes the game state. -/
theorem Game.stepEvents_state (dt : ℚ) (oracle : Oracle) (g : Game) :
    (g.stepEvents dt oracle).state = g.state := rfl

/-- Outcome of the threshold stage on a running game: `GAME_OVER_WIN`
exactly when the score reached 100, `GAME_OVER_LOSE` exactly when it
dropped to −5 or less. -/
theorem Game.applyThresholds_state (g : Game) (hrun : g.state = GameState.RUNNING) :
    (g.applyThresholds.state = GameState.GAME_OVER_WIN ↔ 100 ≤ g.score) ∧
    (g.applyThresholds.state = GameState.GAME_OVER_LOSE ↔ g.score ≤ -5) := by
  unfold Game.applyThresholds
  dsimp only
  by_cases h1 : g.score ≤ -5
  · rw [if_pos h1]
    have h2 : ¬ ({ g with state := GameState.GAME_OVER_LOSE
                          orbs := ([] : List Orb) }.score ≥ 100) := by
      dsimp
      omega
    rw [if_neg h2]
    constructor
    · constructor
      · intro hc
        exact absurd hc (by intro hc2; exact GameState.noConfusion hc2)
      · intro hs
        omega
    · simp [h1]
  · rw [if_neg h1]
    by_cases h2 : g.score ≥ 100
    · rw [if_pos h2]
      constructor
      · simp
        omega
      · constructor
        · intro hc
          exact absurd hc (by intro hc2; exact GameState.noConfusion hc2)
        · intro hs
          omega
    · rw [if_neg h2]
      rw [hrun]
      constructor
      · constructor
        · intro hc
          exact absurd hc (by intro hc2; exact GameState.noConfusion hc2)
        · intro hs
          omega
      · constructor
        · intro hc
          exact absurd hc (by intro hc2; exact GameState.noConfusion hc2)
        · intro hs
          omega

/-- C2: on a running frame, after all of the score-affecting events of
the frame have been applied (the resulting score is the score of the
updated state, which the threshold stage does not modify), the state of
that same frame is `GAME_OVER_WIN` exactly when the score is at least
100 and `GAME_OVER_LOSE` exactly when it is at most −5; and the
threshold check runs only while `RUNNING` — a terminal state is never
changed by `update`. -/
theorem claim_c2 (dt : ℚ) (oracle : Oracle) (g : Game) :
    (g.state = GameState.RUNNING →
      (((g.update dt oracle).state = GameState.GAME_OVER_WIN ↔
          100 ≤ (g.update dt oracle).score) ∧
       ((g.update dt oracle).state = GameState.GAME_OVER_LOSE ↔
          (g.update dt oracle).score ≤ -5))) ∧
    (g.state ≠ GameState.RUNNING → (g.update dt oracle).state = g.state) := by
  constructor
  · intro hrun
    have hu : g.update dt oracle = (g.stepEvents dt oracle).applyThresholds := by
      unfold Game.update
      rw [if_pos hrun]
    rw [hu, Game.applyThresholds_score]
    exact Game.applyThresholds_state _ ((Game.stepEvents_state dt oracle g).trans hrun)
  · intro hne
    unfold Game.update
    rw [if_neg hne]

/-- Witness for C2 at a concrete running game. -/
theorem claim_c2_witness :
    ((Game.update 1 oracleEx gRunEx).state = GameState.GAME_OVER_WIN ↔
        100 ≤ (Game.update 1 oracleEx gRunEx).score) ∧
    ((Game.update 1 oracleEx gRunEx).state = GameState.GAME_OVER_LOSE ↔
        (Game.update 1 oracleEx gRunEx).score ≤ -5) :=
  (claim_c2 1 oracleEx gRunEx).1 rfl

/-- Advancing a pool can only deactivate slots, never activate one, so
the active count does not grow. -/
theorem ParticleSystem.advance_activeCount (ps : ParticleSystem) (dt : ℚ) :
    (ps.advance dt).activeCount ≤ ps.activeCount := by
  unfold ParticleSystem.advance ParticleSystem.activeCount
  dsimp only
  rw [List.countP_map]
  apply List.countP_mono_left
  intro p _ hp
  by_cases hact : p.active
  · exact hact
  · simp only [Function.comp] at hp
    rw [if_neg hact] at hp
    exact absurd hp hact

/-- If the threshold stage does not leave the state unchanged, it has
cleared the orbs. -/
theorem Game.applyThresholds_orbs (g : Game) :
    g.applyThresholds = g ∨ g.applyThresholds.orbs = [] := by
  unfold Game.applyThresholds
  dsimp only
  by_cases h1 : g.score ≤ -5
  · right
    rw [if_pos h1]
    split <;> rfl
  · rw [if_neg h1]
    by_cases h2 : g.score ≥ 100
    · right
      rw [if_pos h2]
    · left
      rw [if_neg h2]

/-- C6: while the state is terminal, `update` only advances the four
particle pools — score, orbs, spawn timer, basket and state are all
unchanged and no pool gains an active slot; moreover on the frame that
enters a terminal state the live orbs are discarded immediately. -/
theorem claim_c6 (dt : ℚ) (oracle : Oracle) (g : Game)
    (hterm : g.state ≠ GameState.RUNNING) :
    g.update dt oracle = { g with pools := g.pools.advanceAll dt } ∧
    (∀ t : ElementType,
      ((g.update dt oracle).pools.get t).activeCount ≤ (g.pools.get t).activeCount) ∧
    (∀ g2 : Game, g2.state = GameState.RUNNING →
      (g2.update dt oracle).state ≠ GameState.RUNNING →
      (g2.update dt oracle).orbs = []) := by
  have he : g.update dt oracle = { g with pools := g.pools.advanceAll dt } := by
    unfold Game.update
    rw [if_neg hterm]
  refine ⟨he, ?_, ?_⟩
  · intro t
    rw [he]
    cases t <;> exact ParticleSystem.advance_activeCount _ dt
  · intro g2 hrun2 hne2
    have hu : g2.update dt oracle = (g2.stepEvents dt oracle).applyThresholds := by
      unfold Game.update
      rw [if_pos hrun2]
    rcases Game.applyThresholds_orbs (g2.stepEvents dt oracle) with hsame | horbs
    · exfalso
      apply hne2
      rw [hu, hsame, Game.stepEvents_state]
      exact hrun2
    · rw [hu]
      exact horbs

/-- Witness for C6 at a concrete terminal game. -/
theorem claim_c6_witness :
    Game.update 1 oracleEx gTermEx = { gTermEx with pools := gTermEx.pools.advanceAll 1 } :=
  (claim_c6 1 oracleEx gTermEx (by decide)).1

/-- C3: the off-screen pass removes exactly the orbs whose
`isOffScreen` test holds against the bottom edge, charges the score with
the fixed 2-point penalty once per removed orb and nothing else, and
involves no particle pool at all (its inputs and outputs contain none);
in the running-frame pipeline it runs after the orb advance and before
the spawn and collision stages. -/
theorem claim_c3 :
    (∀ (screenHeight : ℚ) (orbs : List Orb) (score : Int) (color : RGBA),
      (Game.offscreenPass screenHeight orbs score color).1 =
        orbs.filter (fun o => !(o.isOffScreen (-(screenHeight / 2)))) ∧
      (Game.offscreenPass screenHeight orbs score color).2.1 =
        score - 2 * (orbs.countP (fun o => o.isOffScreen (-(screenHeight / 2))) : Int)) ∧
    (∀ (dt : ℚ) (oracle : Oracle) (g : Game), g.state = GameState.RUNNING →
      g.update dt oracle = (g.stepEvents dt oracle).applyThresholds) := by
  constructor
  · intro screenHeight orbs
    induction orbs with
    | nil =>
      intro score color
      constructor
      · rfl
      · simp [Game.offscreenPass]
    | cons o rest ih =>
      intro score color
      by_cases h : o.isOffScreen (-(screenHeight / 2))
      · obtain ⟨ih1, ih2⟩ := ih (score - 2) (getOrbColor o.type)
        constructor
        · rw [List.filter_cons_of_neg (by simp [h])]
          simp only [Game.offscreenPass, if_pos h]
          exact ih1
        · simp only [Game.offscreenPass, if_pos h]
          rw [ih2, List.countP_cons_of_pos _ _ (by simp [h])]
          push_cast
          ring
      · obtain ⟨ih1, ih2⟩ := ih score color
        constructor
        · rw [List.filter_cons_of_pos (by simp [h])]
          simp only [Game.offscreenPass, if_neg h]
          rw [ih1]
        · simp only [Game.offscreenPass, if_neg h]
          rw [ih2, List.countP_cons_of_neg _ _ (by simp [h])]
  · intro dt oracle g hrun
    unfold Game.update
    rw [if_pos hrun]

/-- Witness for C3: the pipeline equation at a concrete running game. -/
theorem claim_c3_witness :
    Game.update 1 oracleEx gRunEx = (gRunEx.stepEvents 1 oracleEx).applyThresholds :=
  claim_c3.2 1 oracleEx gRunEx rfl

/-- C1: the collision resolution removes exactly the orbs whose bounding
box overlaps the basket, keeps every other orb in order, changes the
score by exactly +5 per type-matched catch and exactly −2 per
mismatched catch, and its whole effect on the pools is one burst per
caught orb into the pool of the orb type — 50 particles for a match and
20 for a mismatch. -/
theorem claim_c1 (b : Basket) (draws : Nat → Nat → ParticleDraw) (k : Nat)
    (orbs : List Orb) (score : Int) (pools : Pools) (color : RGBA) :
    (Game.checkCollisions b draws k orbs score pools color).orbs =
      orbs.filter (fun o => !(orbHitsBasket o b)) ∧
    (Game.checkCollisions b draws k orbs score pools color).score =
      score + ((orbs.filter (fun o => orbHitsBasket o b)).map
        (fun o => if o.type = b.currentType then (5 : Int) else -2)).sum ∧
    (Game.checkCollisions b draws k orbs score pools color).pools =
      Game.burstFold b draws k (orbs.filter (fun o => orbHitsBasket o b)) pools := by
  induction orbs generalizing k score pools color with
  | nil =>
    refine ⟨rfl, by simp [Game.checkCollisions], rfl⟩
  | cons o rest ih =>
    by_cases hhit : orbHitsBasket o b
    · by_cases hty : o.type = b.currentType
      · simp only [Game.checkCollisions, if_pos hhit, if_pos hty]
        obtain ⟨ih1, ih2, ih3⟩ := ih (k + 1) (score + 5)
          (pools.modify o.type (fun s => s.emit (o.x, o.y) 50 o.type (draws k)))
          (getOrbColor o.type)
        refine ⟨?_, ?_, ?_⟩
        · rw [ih1, List.filter_cons_of_neg (by simp [hhit])]
        · rw [ih2, List.filter_cons_of_pos (by simp [hhit]), List.map_cons,
            List.sum_cons, if_pos hty]
          ring
        · rw [ih3, List.filter_cons_of_pos (by simp [hhit])]
          simp only [Game.burstFold, if_pos hty]
      · simp only [Game.checkCollisions, if_pos hhit, if_neg hty]
        obtain ⟨ih1, ih2, ih3⟩ := ih (k + 1) (score - 2)
          (pools.modify o.type (fun s => s.emit (o.x, o.y) 20 o.type (draws k)))
          (getOrbColor o.type)
        refine ⟨?_, ?_, ?_⟩
        · rw [ih1, List.filter_cons_of_neg (by simp [hhit])]
        · rw [ih2, List.filter_cons_of_pos (by simp [hhit]), List.map_cons,
            List.sum_cons, if_neg hty]
          ring
        · rw [ih3, List.filter_cons_of_pos (by simp [hhit])]
          simp only [Game.burstFold, if_neg hty]
    · simp only [Game.checkCollisions, if_neg hhit]
      obtain ⟨ih1, ih2, ih3⟩ := ih k score pools color
      refine ⟨?_, ?_, ?_⟩
      · rw [List.filter_cons_of_pos (by simp [hhit])]
        rw [ih1]
      · rw [ih2, List.filter_cons_of_neg (by simp [hhit])]
      · rw [ih3, List.filter_cons_of_neg (by simp [hhit])]

/-- Every index scanned by `findUnusedParticle` is below `maxParticles`
when the cursor is within bounds. -/
theorem ParticleSystem.scanOrder_lt (ps : ParticleSystem)
    (hc : ps.lastUsedParticle ≤ ps.maxParticles) {i : Nat}
    (hm : i ∈ ps.scanOrder) : i < ps.maxParticles := by
  unfold ParticleSystem.scanOrder at hm
  rcases List.mem_append.mp hm with h | h
  · rw [List.mem_range'_1] at h
    omega
  · rw [List.mem_range] at h
    omega

/-- A found slot is in range and inactive. -/
theorem ParticleSystem.findUnused_some (ps : ParticleSystem)
    (hc : ps.lastUsedParticle ≤ ps.maxParticles) {i : Nat}
    (hf : ps.findUnusedParticle = some i) :
    i < ps.maxParticles ∧ (ps.particles.getD i Particle.init).active = false := by
  unfold ParticleSystem.findUnusedParticle at hf
  refine ⟨ps.scanOrder_lt hc (List.mem_of_find?_eq_some hf), ?_⟩
  have hp := List.find?_some hf
  simpa using hp

/-- `emitOne` preserves well-formedness, the capacity and the slot count. -/
theorem ParticleSystem.emitOne_WF (ps : ParticleSystem) (pos : ℚ × ℚ)
    (ty : ElementType) (d : ParticleDraw) (hwf : ps.WF) :
    (ps.emitOne pos ty d).WF ∧
    (ps.emitOne pos ty d).maxParticles = ps.maxParticles ∧
    (ps.emitOne pos ty d).particles.length = ps.particles.length := by
  unfold ParticleSystem.emitOne
  cases hf : ps.findUnusedParticle with
  | none => exact ⟨hwf, rfl, rfl⟩
  | some i =>
    have hi := ps.findUnused_some hwf.2 hf
    refine ⟨⟨?_, ?_⟩, rfl, ?_⟩
    · simpa [List.length_set] using hwf.1
    · exact Nat.le_of_lt hi.1
    · simp [List.length_set]

/-- `emit` preserves well-formedness, the capacity and the slot count. -/
theorem ParticleSystem.emit_WF (ps : ParticleSystem) (pos : ℚ × ℚ) (count : Nat)
    (ty : ElementType) (draws : Nat → ParticleDraw) (hwf : ps.WF) :
    (ps.emit pos count ty draws).WF ∧
    (ps.emit pos count ty draws).maxParticles = ps.maxParticles ∧
    (ps.emit pos count ty draws).particles.length = ps.particles.length := by
  unfold ParticleSystem.emit
  generalize List.range count = l
  induction l generalizing ps with
  | nil => exact ⟨hwf, rfl, rfl⟩
  | cons i rest ih =>
    rw [List.foldl_cons]
    obtain ⟨h1, h2, h3⟩ := ps.emitOne_WF pos ty (draws i) hwf
    obtain ⟨g1, g2, g3⟩ := ih _ h1
    exact ⟨g1, g2.trans h2, g3.trans h3⟩

/-- `advance` preserves well-formedness, the capacity and the slot count. -/
theorem ParticleSystem.advance_WF (ps : ParticleSystem) (dt : ℚ) (hwf : ps.WF) :
    (ps.advance dt).WF ∧
    (ps.advance dt).maxParticles = ps.maxParticles ∧
    (ps.advance dt).particles.length = ps.particles.length := by
  unfold ParticleSystem.advance
  refine ⟨⟨?_, hwf.2⟩, rfl, ?_⟩ <;> simp [hwf.1]

/-- When every slot of a well-formed pool is active, the scan finds
nothing. -/
theorem ParticleSystem.findUnused_none_of_full (ps : ParticleSystem) (hwf : ps.WF)
    (hall : ∀ p ∈ ps.particles, p.active = true) :
    ps.findUnusedParticle = none := by
  unfold ParticleSystem.findUnusedParticle
  rw [List.find?_eq_none]
  intro i hmem
  have hi : i < ps.particles.length := hwf.1 ▸ ps.scanOrder_lt hwf.2 hmem
  have hget : ps.particles.getD i Particle.init = ps.particles[i] :=
    List.getD_eq_getElem ps.particles Particle.init hi
  have hact := hall (ps.particles[i]) (List.getElem_mem hi)
  rw [hget, hact]
  decide

/-- When every slot of a well-formed pool is active, an emission request
of any size is dropped silently and the pool is unchanged. -/
theorem ParticleSystem.emit_full_noop (ps : ParticleSystem) (pos : ℚ × ℚ)
    (count : Nat) (ty : ElementType) (draws : Nat → ParticleDraw) (hwf : ps.WF)
    (hall : ∀ p ∈ ps.particles, p.active = true) :
    ps.emit pos count ty draws = ps := by
  have hone : ∀ d, ps.emitOne pos ty d = ps := by
    intro d
    unfold ParticleSystem.emitOne
    rw [ps.findUnused_none_of_full hwf hall]
  unfold ParticleSystem.emit
  generalize List.range count = l
  induction l with
  | nil => rfl
  | cons i rest ih =>
    rw [List.foldl_cons, hone (draws i), ih]

/-- `emitOne` never modifies an active slot of a well-formed pool. -/
theorem ParticleSystem.emitOne_active_slot (ps : ParticleSystem) (pos : ℚ × ℚ)
    (ty : ElementType) (d : ParticleDraw) (hwf : ps.WF) (j : Nat)
    (hj : j < ps.particles.length)
    (hact : (ps.particles.getD j Particle.init).active = true) :
    (ps.emitOne pos ty d).particles.getD j Particle.init =
      ps.particles.getD j Particle.init := by
  unfold ParticleSystem.emitOne
  cases hf : ps.findUnusedParticle with
  | none => rfl
  | some i =>
    have hi := ps.findUnused_some hwf.2 hf
    have hne : i ≠ j := by
      intro he
      rw [← he] at hact
      rw [hi.2] at hact
      exact Bool.noConfusion hact
    dsimp only
    rw [List.getD_eq_getElem _ Particle.init (by simpa [List.length_set] using hj),
      List.getD_eq_getElem _ Particle.init hj]
    exact List.getElem_set_ne hne _

/-- `emit` never modifies an active slot of a well-formed pool. -/
theorem ParticleSystem.emit_active_slot (ps : ParticleSystem) (pos : ℚ × ℚ)
    (count : Nat) (ty : ElementType) (draws : Nat → ParticleDraw) (hwf : ps.WF)
    (j : Nat) (hj : j < ps.particles.length)
    (hact : (ps.particles.getD j Particle.init).active = true) :
    (ps.emit pos count ty draws).particles.getD j Particle.init =
      ps.particles.getD j Particle.init := by
  unfold ParticleSystem.emit
  generalize List.range count = l
  induction l generalizing ps with
  | nil => rfl
  | cons i rest ih =>
    rw [List.foldl_cons]
    have h1 := ps.emitOne_active_slot pos ty (draws i) hwf j hj hact
    obtain ⟨w1, _, w3⟩ := ps.emitOne_WF pos ty (draws i) hwf
    have hj2 : j < (ps.emitOne pos ty (draws i)).particles.length := by
      rw [w3]
      exact hj
    have h2 : ((ps.emitOne pos ty (draws i)).particles.getD j Particle.init).active = true := by
      rw [h1]
      exact hact
    have h3 := ih (ps.emitOne pos ty (draws i)) w1 hj2 h2
    rw [h3, h1]

/-- A pool operation preserves well-formedness, the capacity and the
slot count. -/
theorem PoolOp.apply_WF (op : PoolOp) (ps : ParticleSystem) (hwf : ps.WF) :
    (op.apply ps).WF ∧
    (op.apply ps).maxParticles = ps.maxParticles ∧
    (op.apply ps).particles.length = ps.particles.length := by
  cases op with
  | emit pos count ty draws => exact ps.emit_WF pos count ty draws hwf
  | advance dt => exact ps.advance_WF dt hwf

/-- C5: under any sequence of emissions and advances, a well-formed pool
stays well-formed, its capacity and slot count never change (the pool
never grows), the number of active slots never exceeds the capacity;
and an emission request arriving when every slot is active is dropped
silently leaving the pool unchanged, while in general an emission never
overwrites any active slot. -/
theorem claim_c5 :
    (∀ (ops : List PoolOp) (ps : ParticleSystem), ps.WF →
      (PoolOp.applyAll ops ps).WF ∧
      (PoolOp.applyAll ops ps).maxParticles = ps.maxParticles ∧
      (PoolOp.applyAll ops ps).particles.length = ps.particles.length ∧
      (PoolOp.applyAll ops ps).activeCount ≤ ps.maxParticles) ∧
    (∀ (ps : ParticleSystem) (pos : ℚ × ℚ) (count : Nat) (ty : ElementType)
        (draws : Nat → ParticleDraw), ps.WF →
      (∀ p ∈ ps.particles, p.active = true) →
      ps.emit pos count ty draws = ps) ∧
    (∀ (ps : ParticleSystem) (pos : ℚ × ℚ) (count : Nat) (ty : ElementType)
        (draws : Nat → ParticleDraw) (j : Nat), ps.WF →
      j < ps.particles.length →
      (ps.particles.getD j Particle.init).active = true →
      (ps.emit pos count ty draws).particles.getD j Particle.init =
        ps.particles.getD j Particle.init) := by
  refine ⟨?_, ParticleSystem.emit_full_noop,
    fun ps pos count ty draws j hwf hj hact =>
      ParticleSystem.emit_active_slot ps pos count ty draws hwf j hj hact⟩
  intro ops ps hwf
  have hmain : (PoolOp.applyAll ops ps).WF ∧
      (PoolOp.applyAll ops ps).maxParticles = ps.maxParticles ∧
      (PoolOp.applyAll ops ps).particles.length = ps.particles.length := by
    unfold PoolOp.applyAll
    induction ops generalizing ps with
    | nil => exact ⟨hwf, rfl, rfl⟩
    | cons op rest ih =>
      rw [List.foldl_cons]
      obtain ⟨h1, h2, h3⟩ := op.apply_WF ps hwf
      obtain ⟨g1, g2, g3⟩ := ih (op.apply ps) h1
      exact ⟨g1, g2.trans h2, g3.trans h3⟩
  refine ⟨hmain.1, hmain.2.1, hmain.2.2, ?_⟩
  calc (PoolOp.applyAll ops ps).activeCount
      ≤ (PoolOp.applyAll ops ps).particles.length := List.countP_le_length _
    _ = ps.maxParticles := hmain.2.2.trans hwf.1

/-- Witness for C5: a capacity bound after a concrete operation sequence
on a fresh pool, and a dropped emission on a concrete full pool. -/
theorem claim_c5_witness :
    ((PoolOp.applyAll [PoolOp.emit (0, 0) 5 .FIRE (fun _ => drawEx),
        PoolOp.advance 1] psStart).activeCount ≤ psStart.maxParticles) ∧
    psFull.emit (0, 0) 3 .FIRE (fun _ => drawEx) = psFull :=
  ⟨(claim_c5.1 [PoolOp.emit (0, 0) 5 .FIRE (fun _ => drawEx),
      PoolOp.advance 1] psStart (by constructor <;> decide)).2.2.2,
   claim_c5.2.1 psFull (0, 0) 3 .FIRE (fun _ => drawEx)
     (by constructor <;> decide) (by decide)⟩

/-- The two scan loops of `findUnusedParticle` visit exactly the rotation
of `0..m-1` that starts AT the cursor position `l` (inclusive). -/
theorem range'_append_range_eq_rotation (l m : Nat) (h : l ≤ m) :
    List.range' l (m - l) ++ List.range l =
      (List.range m).map (fun k => (l + k) % m) := by
  apply List.ext_getElem
  · simp only [List.length_append, List.length_range', List.length_range,
      List.length_map]
    omega
  · intro i h1 h2
    rw [List.getElem_map, List.getElem_range]
    by_cases hc : i < m - l
    · rw [List.getElem_append_left (by simpa [List.length_range'] using hc)]
      rw [List.getElem_range']
      have : l + 1 * i < m := by omega
      rw [Nat.mod_eq_of_lt (by omega)]
      omega
    · rw [List.getElem_append_right (by simpa [List.length_range'] using hc)]
      rw [List.getElem_range]
      have hge : m ≤ l + i := by omega
      have hlt : l + i - m < m := by
        simp only [List.length_append, List.length_range', List.length_range] at h1
        omega
      rw [Nat.mod_eq_sub_mod hge, Nat.mod_eq_of_lt hlt]
      simp only [List.length_range']
      omega

/-- The pool `psC` is reachable: it is exactly what a fresh two-slot
pool becomes after one emission and one advance that expires the
emitted particle. -/
theorem psC_reachable :
    ((ParticleSystem.create 2).emit (0, 0) 1 .EARTH (fun _ => drawEx)).advance 2 = psC := by
  have h0 : (ParticleSystem.create 2).findUnusedParticle = some 0 := rfl
  have h1 : (ParticleSystem.create 2).emit (0, 0) 1 .EARTH (fun _ => drawEx) =
      { particles := [Particle.make (0, 0) .EARTH drawEx, Particle.init]
        lastUsedParticle := 0
        maxParticles := 2 } := by
    unfold ParticleSystem.emit
    have hr : List.range 1 = [0] := rfl
    rw [hr, List.foldl_cons, List.foldl_nil]
    unfold ParticleSystem.emitOne
    rw [h0]
    rfl
  have hmake : Particle.make (0, 0) .EARTH drawEx =
      { px := 0, py := 0, vx := 0, vy := -20, color := ⟨0.4, 0.2, 0, 1⟩
        life := 0, dur := 1, size := 20, active := true } := by
    norm_num [Particle.make, drawEx]
  rw [h1, hmake]
  unfold ParticleSystem.advance
  norm_num [psC, psCexpired, Particle.init]

/-- C9 (amended): the free-slot scan of an emission starts AT the last
slot that was (re)activated — the cursor itself, inclusive — and wraps
around once over the whole pool, selecting the first inactive slot in
that rotation; when the scan finds nothing the particle is skipped
silently and the pool is unchanged. -/
theorem claim_c9 (ps : ParticleSystem) (h : ps.lastUsedParticle ≤ ps.maxParticles) :
    ps.findUnusedParticle =
      ((List.range ps.maxParticles).map
          (fun k => (ps.lastUsedParticle + k) % ps.maxParticles)).find?
        (fun i => !((ps.particles.getD i Particle.init).active)) ∧
    (ps.findUnusedParticle = none →
      ∀ (pos : ℚ × ℚ) (ty : ElementType) (d : ParticleDraw),
        ps.emitOne pos ty d = ps) := by
  constructor
  · unfold ParticleSystem.findUnusedParticle ParticleSystem.scanOrder
    rw [range'_append_range_eq_rotation _ _ h]
  · intro hn pos ty d
    unfold ParticleSystem.emitOne
    rw [hn]

/-- Counterexample to C9 as stated: in the concrete pool `psC`, slot 0 is
the last slot that was (re)activated and has since expired, and both
slots are inactive; the code selects slot 0 — the cursor position
itself — whereas a scan starting at the FOLLOWING index (the rule
`findUnusedSpec` transcribes from the specification) would select
slot 1. -/
theorem claim_c9_counterexample :
    psC.lastUsedParticle = 0 ∧
    psC.findUnusedParticle = some 0 ∧
    psC.findUnusedSpec = some 1 := by
  refine ⟨rfl, ?_, ?_⟩ <;> decide

/-- Witness for the amended C9 at the concrete pool `psC`. -/
theorem claim_c9_witness :
    psC.findUnusedParticle =
      ((List.range psC.maxParticles).map
          (fun k => (psC.lastUsedParticle + k) % psC.maxParticles)).find?
        (fun i => !((psC.particles.getD i Particle.init).active)) ∧
    (psC.findUnusedParticle = none →
      ∀ (pos : ℚ × ℚ) (ty : ElementType) (d : ParticleDraw),
        psC.emitOne pos ty d = psC) :=
  claim_c9 psC (by decide)
